import Mathlib

/-!
Verification of the field (column) specification layer in
`src/subconscious/column.py`.

The Python module defines a `Column` descriptor validated at construction
time, an `Integer` variant with an auto-increment generator, and a
`DecimalColumn` variant with a fixed-scale integer-string store encoding.
This file gives a shallow embedding of those definitions and proves the
specification's claims about them.

Modelling conventions:
* Python argument values that are only inspected for truthiness and for
  identity with the literal `True` are modelled by `PyBoolArg`.
* Python's `decimal.Decimal` values are modelled by `PyDecimal`: finite
  values are exact rationals (the ambient decimal context is external to
  this module and is assumed to carry enough precision for the values at
  hand; context-precision rounding is outside the model), plus the special
  values quiet NaN, signaling NaN and signed infinity.
* Python strings are modelled as `List Char`.
* Raising an exception is modelled by returning `Except.error`.
-/

namespace Subconscious

/-- A Python value passed for one of the boolean-ish keyword arguments
(`primary_key`, `composite_key`, `index`, `required`, `sort`).  The source
inspects such a value in exactly two ways: truthiness (`if x:` / `and`) and
identity with the literal `True` (`x is True`), so the model only keeps
those two observations apart: `noneV`/`falseV`/`falsyV` are falsy and not
`True`; `trueV` is the literal `True`; `truthyV` is any other truthy value
(such as `1` or a nonempty string). -/
inductive PyBoolArg
  | noneV
  | trueV
  | falseV
  | truthyV
  | falsyV
deriving DecidableEq

/-- Python truthiness of the argument (`bool(x)`). -/
def PyBoolArg.toBool : PyBoolArg → Bool
  | .trueV => true
  | .truthyV => true
  | _ => false

/-- Python identity test `x is True`. -/
def PyBoolArg.isTrue : PyBoolArg → Bool
  | .trueV => true
  | _ => false

/-- The `type` argument of `Column.__init__`: one of the Python classes
`str`, `int`, `decimal.Decimal`, or any other class (tagged by name,
e.g. `float`). -/
inductive FieldType
  | str
  | int
  | decimal
  | other (name : String)
deriving DecidableEq

/-- The `enum` argument of `Column.__init__`.  The source inspects it for
truthiness (`if enum:`), for being an `EnumMeta` instance, and, when it is
an enum class, iterates its members' underlying `.value`s (modelled as
integers).  Truthiness of an enum class goes through `EnumMeta.__len__`,
so an enum class with no members is falsy; any non-enum object carries its
own truthiness. -/
inductive EnumArg
  | noneV
  | enumV (values : List ℤ)
  | otherV (truthy : Bool)
deriving DecidableEq

/-- Python truthiness of the `enum` argument. -/
def EnumArg.toBool : EnumArg → Bool
  | .noneV => false
  | .enumV vs => !vs.isEmpty
  | .otherV t => t

/-- `isinstance(enum, EnumMeta)`. -/
def EnumArg.isEnumMeta : EnumArg → Bool
  | .enumV _ => true
  | _ => false

/-- The underlying values of an enum class: `[x.value for x in enum]`. -/
def EnumArg.values : EnumArg → List ℤ
  | .enumV vs => vs
  | _ => []

/-- Exceptions raised by the constructors in `column.py`.  The first three
are the `InvalidColumnDefinition` raises of `Column.__init__`, told apart
by their messages; `attributeError` is Python's built-in `AttributeError`. -/
inductive ColumnError
  | unsupportedType
  | conflictingKeyRole
  | invalidEnumDefinition
  | attributeError
deriving DecidableEq

/-- The attributes a successfully constructed `Column` descriptor carries
(`self.field_type`, `self.primary`, `self.composite`, `self.sorted`,
`self.indexed`, `self.required`, `self.enum`, `self.enum_choices`). -/
structure Column where
  field_type : FieldType
  primary : Bool
  composite : Bool
  sorted : Bool
  indexed : Bool
  required : Bool
  enum : EnumArg
  enum_choices : Finset ℤ
deriving DecidableEq

/-- Embeds `Column.__init__(self, type=str, primary_key=None,
composite_key=None, index=None, required=None, enum=None, sort=None)`.

Checks happen in source order: the `type not in (str, int, Decimal)` check,
then the `primary_key and composite_key` conflict check (truthiness), then
the flag assignments (`is True` identity), then the enum handling
(`if enum:` truthiness followed by the `isinstance(enum, EnumMeta)`
check). -/
def Column.init (type : FieldType) (primary_key : PyBoolArg)
    (composite_key : PyBoolArg) (index : PyBoolArg) (required : PyBoolArg)
    (enum : EnumArg) (sort : PyBoolArg) : Except ColumnError Column :=
  if ¬ (type = FieldType.str ∨ type = FieldType.int ∨ type = FieldType.decimal) then
    .error .unsupportedType
  else if primary_key.toBool && composite_key.toBool then
    .error .conflictingKeyRole
  else
    let primary := primary_key.isTrue
    let composite := composite_key.isTrue
    if enum.toBool then
      if ¬ enum.isEnumMeta then
        .error .invalidEnumDefinition
      else
        .ok { field_type := type
              primary := primary
              composite := composite
              sorted := sort.isTrue
              indexed := index.isTrue || composite
              required := required.isTrue || primary || composite
              enum := enum
              enum_choices := enum.values.toFinset }
    else
      .ok { field_type := type
            primary := primary
            composite := composite
            sorted := sort.isTrue
            indexed := index.isTrue || composite
            required := required.isTrue || primary || composite
            enum := enum
            enum_choices := ∅ }

/-- Python attribute lookup of `pop` on a tuple.  Tuples have no `pop`
method, so the lookup raises `AttributeError` whatever the tuple holds. -/
def tuplePop {α : Type} (t : List α) : Except ColumnError (α × List α) :=
  .error .attributeError

/-- Embeds `DecimalColumn.__init__(self, decimal_places=10, *kwargs)`.

The Python signature declares `*kwargs` — a positional-vararg *tuple*, not
a keyword dict — so the body's first statement `kwargs.pop('type', None)`
is a method call on a tuple and raises `AttributeError` on every
invocation, before `Column.__init__` is ever reached.  (Were the `pop` to
succeed, the next statement `kwargs['type'] = Decimal` would equally fail:
tuples do not support item assignment.)  The extra positional arguments
collected into the tuple are irrelevant to the outcome and are modelled
with an arbitrary element type. -/
def DecimalColumn.init {α : Type} (decimal_places : ℤ) (kwargs : List α) :
    Except ColumnError (ℤ × Column) := do
  let _ ← tuplePop kwargs
  throw .attributeError

/-- A `decimal.Decimal` value: a finite exact value (rational), a quiet
NaN, a signaling NaN, or a signed infinity.  NaN sign and payload do not
affect any behaviour modelled here and are dropped. -/
inductive PyDecimal
  | fin (q : ℚ)
  | nan
  | snan
  | inf (neg : Bool)
deriving DecidableEq

/-- Exceptions raised by the `decimal` module paths exercised in
`column.py`: `decimal.InvalidOperation` (conversion-syntax errors, any
operation on a signaling NaN, and `int()` of a NaN) and the built-in
`OverflowError` (`int()` of an infinity).  The specification calls a
decode-time raise `DecodeError` and an encode-time raise `EncodeError`. -/
inductive DecimalError
  | invalidOperation
  | overflowError
deriving DecidableEq

/-! ### The decimal numeric-string grammar

`Decimal(str_value)` accepts, after removal of underscores and of leading
and trailing whitespace, an optional sign followed by either a finite
numeric literal (digits with an optional fractional part and an optional
exponent, with at least one digit before the exponent), an infinity
(`Inf`/`Infinity`), or a NaN (`NaN`/`sNaN`, optionally followed by
diagnostic digits), all case-insensitively.  Anything else signals
`InvalidOperation` (conversion syntax).  Whitespace is modelled as the
ASCII whitespace characters. -/

/-- ASCII decimal digit test. -/
def isAsciiDigit (c : Char) : Bool :=
  c.isDigit

/-- Numeric value of an ASCII digit character. -/
def digitVal (c : Char) : ℕ :=
  c.toNat - 48

/-- ASCII whitespace, as stripped from the ends of a numeric string. -/
def isPySpace (c : Char) : Bool :=
  c = ' ' || c = '\t' || c = '\n' || c = '\r' || c = '\x0b' || c = '\x0c'

/-- Remove every underscore (`value.replace("_", "")`). -/
def stripUnderscores (l : List Char) : List Char :=
  l.filter (fun c => c ≠ '_')

/-- Remove leading and trailing whitespace. -/
def trimWs (l : List Char) : List Char :=
  ((l.dropWhile isPySpace).reverse.dropWhile isPySpace).reverse

/-- Split off the longest leading run of digits. -/
def splitDigits (l : List Char) : List Char × List Char :=
  (l.takeWhile isAsciiDigit, l.dropWhile isAsciiDigit)

/-- The natural number denoted by a big-endian digit string. -/
def digitsToNat (ds : List Char) : ℕ :=
  ds.foldl (fun a c => 10 * a + digitVal c) 0

/-- Strip an optional leading sign, returning whether it was `-`. -/
def splitSign (l : List Char) : Bool × List Char :=
  match l with
  | [] => (false, [])
  | c :: r => if c = '-' then (true, r) else if c = '+' then (false, r) else (false, c :: r)

/-- Parse the optional exponent part: the empty remainder denotes exponent
`0`; otherwise `e`/`E`, an optional sign and at least one digit, consuming
the whole remainder. -/
def parseExpPart (l : List Char) : Option ℤ :=
  match l with
  | [] => some 0
  | c :: rest =>
    if c.toLower = 'e' then
      let (neg, rest2) := splitSign rest
      let (ds, rest3) := splitDigits rest2
      if ds.isEmpty || !rest3.isEmpty then none
      else some (if neg then -(digitsToNat ds : ℤ) else (digitsToNat ds : ℤ))
    else none

/-- Parse an unsigned finite numeric literal: an integer part, an optional
`.` and fractional part (at least one digit between the two parts), and an
optional exponent. -/
def parseFinitePart (l : List Char) : Option ℚ :=
  let (ip, r1) := splitDigits l
  let (fp, r2) :=
    match r1 with
    | '.' :: r => splitDigits r
    | _ => ([], r1)
  if ip.isEmpty && fp.isEmpty then none
  else
    match parseExpPart r2 with
    | none => none
    | some e => some ((digitsToNat (ip ++ fp) : ℚ) * 10 ^ (e - (fp.length : ℤ)))

/-- Lower-case a string. -/
def toLowerStr (l : List Char) : List Char :=
  l.map Char.toLower

/-- Parse the special values `Inf`, `Infinity`, `NaN` and `sNaN` (the last
two with optional diagnostic digits), given the already lower-cased body
after the sign. -/
def parseSpecialPart (neg : Bool) (low : List Char) : Option PyDecimal :=
  if low = ['i', 'n', 'f'] || low = ['i', 'n', 'f', 'i', 'n', 'i', 't', 'y'] then
    some (.inf neg)
  else
    match low with
    | 'n' :: 'a' :: 'n' :: rest => if rest.all isAsciiDigit then some .nan else none
    | 's' :: 'n' :: 'a' :: 'n' :: rest => if rest.all isAsciiDigit then some .snan else none
    | _ => none

/-- Embeds the `decimal.Decimal` constructor on a string argument: remove
underscores, trim whitespace, strip an optional sign, then try the finite
literal alternative and fall back to the special values.  `none` models
the `InvalidOperation` conversion-syntax signal. -/
def pyDecimalOfChars (input : List Char) : Option PyDecimal :=
  let l := trimWs (stripUnderscores input)
  let (neg, body) := splitSign l
  match parseFinitePart body with
  | some q => some (.fin (if neg then -q else q))
  | none => parseSpecialPart neg (toLowerStr body)

/-! ### Rendering integers (`str(int_value)`) -/

/-- The ASCII digit character for a digit value. -/
def natDigitChar (d : ℕ) : Char :=
  Char.ofNat (48 + d)

/-- Fuel-driven big-endian digit rendering of a natural number (the fuel
only bounds the recursion; `fuel ≥ n` renders `n` completely). -/
def natToCharsAux : ℕ → ℕ → List Char → List Char
  | 0, _, acc => acc
  | _ + 1, 0, acc => acc
  | fuel + 1, n + 1, acc =>
    natToCharsAux fuel ((n + 1) / 10) (natDigitChar ((n + 1) % 10) :: acc)

/-- Decimal digit string of a natural number (empty for `0`). -/
def natToChars (n : ℕ) : List Char :=
  natToCharsAux n n []

/-- Embeds Python `str()` on an `int`: an optional `-` sign followed by the
decimal digits, and `"0"` for zero. -/
def intToChars (m : ℤ) : List Char :=
  if m = 0 then ['0']
  else if m < 0 then '-' :: natToChars m.natAbs
  else natToChars m.natAbs

/-! ### The decimal encode/decode pair -/

/-- Embeds Python `int()` applied to a finite `Decimal`: truncation toward
zero, i.e. the sign of the numerator times the natural-number quotient of
its absolute value by the denominator. -/
def pyIntOfRat (q : ℚ) : ℤ :=
  q.num.sign * ((q.num.natAbs / q.den : ℕ) : ℤ)

/-- `d * 10**decimal_places` on Decimals: exact on finite values; NaN
propagates; any operation on a signaling NaN raises `InvalidOperation`;
an infinity times the positive integer `10**s` keeps its sign. -/
def pyDecMulPow10 (d : PyDecimal) (s : ℕ) : Except DecimalError PyDecimal :=
  match d with
  | .fin q => .ok (.fin (q * 10 ^ s))
  | .nan => .ok .nan
  | .snan => .error .invalidOperation
  | .inf b => .ok (.inf b)

/-- `d / 10**decimal_places` on Decimals: exact on finite values (the
divisor is a positive integer); NaN propagates; a signaling NaN raises
`InvalidOperation`; an infinity keeps its sign. -/
def pyDecDivPow10 (d : PyDecimal) (s : ℕ) : Except DecimalError PyDecimal :=
  match d with
  | .fin q => .ok (.fin (q / 10 ^ s))
  | .nan => .ok .nan
  | .snan => .error .invalidOperation
  | .inf b => .ok (.inf b)

/-- Embeds Python `int()` on a `Decimal`: truncation on finite values,
`InvalidOperation` on a NaN (quiet or signaling), `OverflowError` on an
infinity. -/
def pyIntOfDecimal (d : PyDecimal) : Except DecimalError ℤ :=
  match d with
  | .fin q => .ok (pyIntOfRat q)
  | .nan => .error .invalidOperation
  | .snan => .error .invalidOperation
  | .inf _ => .error .overflowError

/-- A Python value handed to `get_redis_value`: either already a `Decimal`
instance (the `isinstance` check passes and the value is used as is), or
any other object, carried by its string form `str(x)` — the source then
re-parses that string with the `Decimal` constructor.  (For an `int`,
`str(x)` is its decimal digits; for a `float`, it is the shortest literal
denoting the float, which is how the string route avoids inheriting binary
representation error.) -/
inductive PyNumValue
  | dec (d : PyDecimal)
  | nonDec (strRep : List Char)

/-- The `Decimal` the source works on: the value itself, or the parse of
its string form (`none` models the `InvalidOperation` raise of the
constructor). -/
def coerceToDecimal : PyNumValue → Option PyDecimal
  | .dec d => some d
  | .nonDec s => pyDecimalOfChars s

/-- Embeds `DecimalColumn.get_redis_value`:

    if not isinstance(decimal_value, Decimal):
        decimal_value = Decimal(str(decimal_value))
    return str(int(decimal_value * (10**self.decimal_places)))

`decimal_places` is `self.decimal_places`. -/
def get_redis_value (decimal_places : ℕ) (decimal_value : PyNumValue) :
    Except DecimalError (List Char) := do
  let d ←
    match coerceToDecimal decimal_value with
    | none => throw DecimalError.invalidOperation
    | some d => pure d
  let prod ← pyDecMulPow10 d decimal_places
  let n ← pyIntOfDecimal prod
  pure (intToChars n)

/-- Embeds `DecimalColumn.get_python_value`:

    return Decimal(str(redis_value)) / (10**self.decimal_places)

The raw value arrives as a string (`str(redis_value)` leaves it
unchanged). -/
def get_python_value (decimal_places : ℕ) (redis_value : List Char) :
    Except DecimalError PyDecimal := do
  let d ←
    match pyDecimalOfChars redis_value with
    | none => throw DecimalError.invalidOperation
    | some d => pure d
  pyDecDivPow10 d decimal_places

/-! ### The auto-increment generator -/

/-- Embeds `Integer.auto_generate`:

    return await db.incr('auto:{}:{}'.format(model.key_prefix(), self.name))

The external counter service is modelled as a state-passing function
`incr`; the operation issues exactly one request, with the key built from
the model's key prefix and the field name, and returns the service's
response — value or failure — unchanged. -/
def auto_generate {σ ε : Type} (incr : σ → String → Except ε (ℤ × σ))
    (db : σ) (pfx : String) (fieldName : String) : Except ε (ℤ × σ) :=
  incr db ("auto:" ++ pfx ++ ":" ++ fieldName)

/-- A sequential atomic counter: `incr` returns the key's previous value
plus one and stores it back; other keys are untouched.  Models a counter
service that yields 1, 2, 3, … for repeated calls on one key. -/
def seqIncr {ε : Type} (store : String → ℤ) (key : String) :
    Except ε (ℤ × (String → ℤ)) :=
  .ok (store key + 1, fun k => if k = key then store key + 1 else store k)

/-! ### Specification-side notions -/

/-- Truncation of a rational toward zero, as the specification describes
it (the spec-side counterpart of `pyIntOfRat`). -/
def ratTruncSpec (q : ℚ) : ℤ :=
  if 0 ≤ q then ⌊q⌋ else ⌈q⌉

/-- `v` truncated toward zero to `s` fractional digits (the spec-side
description of what the encode/decode round trip preserves). -/
def truncToScale (s : ℕ) (v : ℚ) : ℚ :=
  (ratTruncSpec (v * 10 ^ s) : ℚ) / 10 ^ s

/-! ### Lemmas: truncation toward zero -/

/-- Python `int()` on a finite decimal agrees with the spec-side
truncation toward zero: the floor for nonnegative values, the ceiling for
negative ones. -/
theorem pyIntOfRat_eq_ratTruncSpec (q : ℚ) : pyIntOfRat q = ratTruncSpec q := by
  rcases lt_trichotomy q.num 0 with hn | hn | hn
  · have hq : q < 0 := Rat.num_neg.mp hn
    rw [ratTruncSpec, if_neg (not_le.mpr hq)]
    have h1 : (⌈q⌉ : ℤ) = -⌊-q⌋ := by rw [Int.floor_neg]; ring
    have h2 : ⌊-q⌋ = (-q).num / ((-q).den : ℤ) := Rat.floor_def
    have hnum : (-q).num = -q.num := Rat.neg_num q
    have hden : (-q).den = q.den := rfl
    have h3 : ((q.num.natAbs / q.den : ℕ) : ℤ) = (-q.num) / (q.den : ℤ) := by
      rw [← Int.natAbs_neg, Int.ofNat_ediv,
        Int.natAbs_of_nonneg (by omega : (0 : ℤ) ≤ -q.num)]
    rw [h1, h2, hnum, hden, ← h3, pyIntOfRat, Int.sign_eq_neg_one_of_neg hn]
    ring
  · have hq : q = 0 := Rat.num_eq_zero.mp hn
    subst hq
    simp [pyIntOfRat, ratTruncSpec]
  · have hq : 0 < q := Rat.num_pos.mp hn
    rw [ratTruncSpec, if_pos hq.le]
    have h2 : ⌊q⌋ = q.num / (q.den : ℤ) := Rat.floor_def
    have h3 : ((q.num.natAbs / q.den : ℕ) : ℤ) = q.num / (q.den : ℤ) := by
      rw [Int.ofNat_ediv, Int.natAbs_of_nonneg (by omega : (0 : ℤ) ≤ q.num)]
    rw [h2, ← h3, pyIntOfRat, Int.sign_eq_one_of_pos hn]
    ring

/-- Truncating an integer is the identity. -/
theorem pyIntOfRat_intCast (m : ℤ) : pyIntOfRat ((m : ℚ)) = m := by
  rw [pyIntOfRat_eq_ratTruncSpec, ratTruncSpec]
  by_cases h : (0 : ℚ) ≤ (m : ℚ) <;> simp [h]

/-! ### Lemmas: digit strings -/

/-- The digit characters `natDigitChar d`, `d < 10`, are ASCII digits with
the expected value and are none of the separator characters the numeric
parser treats specially. -/
theorem natDigitChar_spec :
    ∀ d : ℕ, d < 10 →
      isAsciiDigit (natDigitChar d) = true ∧ digitVal (natDigitChar d) = d := by
  decide

/-- An ASCII digit character is not an underscore, not whitespace, not a
sign, and not a decimal point. -/
theorem isAsciiDigit_not_special (c : Char) (h : isAsciiDigit c = true) :
    c ≠ '_' ∧ isPySpace c = false ∧ c ≠ '-' ∧ c ≠ '+' ∧ c ≠ '.' := by
  refine ⟨?_, ?_, ?_, ?_, ?_⟩
  · rintro rfl; exact absurd h (by decide)
  · by_contra hs
    have hs' : isPySpace c = true := by
      cases hps : isPySpace c
      · exact absurd hps hs
      · rfl
    rw [isPySpace] at hs'
    simp only [Bool.or_eq_true, decide_eq_true_eq] at hs'
    rcases hs' with ((((rfl | rfl) | rfl) | rfl) | rfl) | rfl <;> exact absurd h (by decide)
  · rintro rfl; exact absurd h (by decide)
  · rintro rfl; exact absurd h (by decide)
  · rintro rfl; exact absurd h (by decide)

/-- The fuel-driven renderer computes the big-endian digit string of its
input, for sufficient fuel. -/
theorem natToCharsAux_eq (fuel : ℕ) :
    ∀ n acc, n ≤ fuel →
      natToCharsAux fuel n acc = ((Nat.digits 10 n).map natDigitChar).reverse ++ acc := by
  induction fuel with
  | zero =>
    intro n acc hn
    interval_cases n
    simp [natToCharsAux]
  | succ fuel ih =>
    intro n acc hn
    match n with
    | 0 => simp [natToCharsAux]
    | n + 1 =>
      rw [natToCharsAux]
      have hdiv : (n + 1) / 10 ≤ fuel := by
        have := Nat.div_lt_self (Nat.succ_pos n) (by norm_num : (1 : ℕ) < 10)
        omega
      rw [ih ((n + 1) / 10) _ hdiv]
      rw [Nat.digits_def' (by norm_num : 1 < 10) (Nat.succ_pos n)]
      simp [List.reverse_cons]

/-- `natToChars` renders exactly the digits of its input. -/
theorem natToChars_eq (n : ℕ) :
    natToChars n = ((Nat.digits 10 n).map natDigitChar).reverse := by
  rw [natToChars, natToCharsAux_eq n n [] le_rfl, List.append_nil]

/-- Every character produced by `natToChars` is an ASCII digit. -/
theorem natToChars_all_digits (n : ℕ) :
    ∀ c ∈ natToChars n, isAsciiDigit c = true := by
  intro c hc
  rw [natToChars_eq] at hc
  rw [List.mem_reverse, List.mem_map] at hc
  obtain ⟨d, hd, rfl⟩ := hc
  exact (natDigitChar_spec d (Nat.digits_lt_base (by norm_num) hd)).1

/-- Reading a rendered digit list back as a number, one digit at a time,
recovers `Nat.ofDigits`. -/
theorem digitsToNat_map_reverse :
    ∀ ds : List ℕ, (∀ d ∈ ds, d < 10) →
      digitsToNat ((ds.map natDigitChar).reverse) = Nat.ofDigits 10 ds := by
  intro ds
  induction ds with
  | nil => intro _; simp [digitsToNat, Nat.ofDigits_nil]
  | cons d ds ih =>
    intro hlt
    have hd : d < 10 := hlt d (List.mem_cons_self d ds)
    have hds : ∀ x ∈ ds, x < 10 := fun x hx => hlt x (List.mem_cons_of_mem d hx)
    rw [List.map_cons, List.reverse_cons]
    rw [digitsToNat, List.foldl_append]
    have h1 : List.foldl (fun a c => 10 * a + digitVal c) 0 ((ds.map natDigitChar).reverse) =
        Nat.ofDigits 10 ds := ih hds
    rw [h1]
    simp only [List.foldl_cons, List.foldl_nil]
    rw [(natDigitChar_spec d hd).2, Nat.ofDigits_cons]
    omega

/-- Parsing the rendered digits of a natural number recovers it. -/
theorem digitsToNat_natToChars (n : ℕ) : digitsToNat (natToChars n) = n := by
  rw [natToChars_eq,
    digitsToNat_map_reverse _ (fun d hd => Nat.digits_lt_base (by norm_num) hd),
    Nat.ofDigits_digits]

/-- A nonzero natural number renders to a nonempty digit string. -/
theorem natToChars_ne_nil {n : ℕ} (hn : n ≠ 0) : natToChars n ≠ [] := by
  rw [natToChars_eq]
  simp [Nat.digits_ne_nil_iff_ne_zero, hn]

/-! ### Lemmas: the parser on pure digit strings -/

/-- Underscore removal is the identity on strings without underscores. -/
theorem stripUnderscores_eq_self {l : List Char} (h : ∀ c ∈ l, c ≠ '_') :
    stripUnderscores l = l := by
  rw [stripUnderscores, List.filter_eq_self]
  intro a ha
  simpa using h a ha

/-- Whitespace trimming is the identity on strings without whitespace. -/
theorem trimWs_eq_self {l : List Char} (h : ∀ c ∈ l, isPySpace c = false) :
    trimWs l = l := by
  have h1 : l.dropWhile isPySpace = l := by
    cases hl : l with
    | nil => rfl
    | cons a as =>
      rw [List.dropWhile_cons]
      have : isPySpace a = false := h a (by rw [hl]; exact List.mem_cons_self a as)
      rw [this]
      simp
  rw [trimWs, h1]
  have h2 : l.reverse.dropWhile isPySpace = l.reverse := by
    cases hl : l.reverse with
    | nil => rfl
    | cons a as =>
      rw [List.dropWhile_cons]
      have ha : a ∈ l := by
        rw [← List.mem_reverse, hl]
        exact List.mem_cons_self a as
      rw [h a ha]
      simp
  rw [h2, List.reverse_reverse]

/-- A nonempty all-digit string parses as the unsigned finite literal it
denotes. -/
theorem parseFinitePart_digits {l : List Char} (hne : l ≠ [])
    (h : ∀ c ∈ l, isAsciiDigit c = true) :
    parseFinitePart l = some ((digitsToNat l : ℚ)) := by
  have htake : l.takeWhile isAsciiDigit = l := List.takeWhile_eq_self_iff.mpr h
  have hdrop : l.dropWhile isAsciiDigit = [] := List.dropWhile_eq_nil_iff.mpr h
  rw [parseFinitePart, splitDigits, htake, hdrop]
  simp only [List.isEmpty_nil]
  rw [if_neg (by simp [List.isEmpty_iff, hne])]
  rw [parseExpPart]
  simp

/-- A nonempty all-digit string is accepted by the decimal constructor and
denotes the corresponding nonnegative finite value. -/
theorem pyDecimalOfChars_digits {l : List Char} (hne : l ≠ [])
    (h : ∀ c ∈ l, isAsciiDigit c = true) :
    pyDecimalOfChars l = some (.fin ((digitsToNat l : ℚ))) := by
  have hspec : ∀ c ∈ l, c ≠ '_' ∧ isPySpace c = false ∧ c ≠ '-' ∧ c ≠ '+' ∧ c ≠ '.' :=
    fun c hc => isAsciiDigit_not_special c (h c hc)
  obtain ⟨a, as, rfl⟩ := List.exists_cons_of_ne_nil hne
  have ha : a ∈ a :: as := List.mem_cons_self a as
  rw [pyDecimalOfChars]
  rw [stripUnderscores_eq_self (fun c hc => (hspec c hc).1)]
  rw [trimWs_eq_self (fun c hc => (hspec c hc).2.1)]
  have hsign : splitSign (a :: as) = (false, a :: as) := by
    rw [splitSign]
    rw [if_neg (hspec a ha).2.2.1, if_neg (hspec a ha).2.2.2.1]
  rw [hsign]
  dsimp only
  rw [parseFinitePart_digits hne h]
  simp

/-- A `-` followed by a nonempty all-digit string parses to the negated
value. -/
theorem pyDecimalOfChars_neg_digits {l : List Char} (hne : l ≠ [])
    (h : ∀ c ∈ l, isAsciiDigit c = true) :
    pyDecimalOfChars ('-' :: l) = some (.fin (-(digitsToNat l : ℚ))) := by
  have hspec : ∀ c ∈ l, c ≠ '_' ∧ isPySpace c = false ∧ c ≠ '-' ∧ c ≠ '+' ∧ c ≠ '.' :=
    fun c hc => isAsciiDigit_not_special c (h c hc)
  have hstrip : ∀ c ∈ ('-' :: l), c ≠ '_' := by
    intro c hc
    rcases List.mem_cons.mp hc with rfl | hc
    · decide
    · exact (hspec c hc).1
  have htrim : ∀ c ∈ ('-' :: l), isPySpace c = false := by
    intro c hc
    rcases List.mem_cons.mp hc with rfl | hc
    · decide
    · exact (hspec c hc).2.1
  rw [pyDecimalOfChars]
  rw [stripUnderscores_eq_self hstrip]
  rw [trimWs_eq_self htrim]
  have hsign : splitSign ('-' :: l) = (true, l) := by
    rw [splitSign]
    simp
  rw [hsign]
  dsimp only
  rw [parseFinitePart_digits hne h]
  simp

/-- Parsing the rendering of any integer recovers exactly that integer as
a finite decimal: the store's integer-string encoding is lossless. -/
theorem pyDecimalOfChars_intToChars (m : ℤ) :
    pyDecimalOfChars (intToChars m) = some (.fin ((m : ℚ))) := by
  rcases lt_trichotomy m 0 with hm | hm | hm
  · have h0 : m ≠ 0 := by omega
    have habs : m.natAbs ≠ 0 := by omega
    rw [intToChars, if_neg h0, if_pos hm]
    rw [pyDecimalOfChars_neg_digits (natToChars_ne_nil habs) (natToChars_all_digits _)]
    rw [digitsToNat_natToChars]
    congr 2
    rw [Int.cast_natAbs, abs_of_neg hm]
    push_cast
    ring
  · subst hm
    have : pyDecimalOfChars (intToChars 0) = some (.fin ((digitsToNat ['0'] : ℚ))) := by
      rw [intToChars, if_pos rfl]
      exact pyDecimalOfChars_digits (by simp) (by decide)
    rw [this]
    have h0 : digitsToNat ['0'] = 0 := by decide
    rw [h0]
    norm_num
  · have h0 : m ≠ 0 := by omega
    have habs : m.natAbs ≠ 0 := by omega
    rw [intToChars, if_neg h0, if_neg (by omega)]
    rw [pyDecimalOfChars_digits (natToChars_ne_nil habs) (natToChars_all_digits _)]
    rw [digitsToNat_natToChars]
    congr 2
    rw [Int.cast_natAbs, abs_of_pos hm]

/-! ### Lemmas: the encode/decode pair, composed -/

/-- `get_redis_value` on a finite Decimal: multiply by `10^s`, truncate,
render. -/
theorem get_redis_value_fin (s : ℕ) (v : ℚ) :
    get_redis_value s (.dec (.fin v)) = .ok (intToChars (pyIntOfRat (v * 10 ^ s))) := rfl

/-- `get_python_value` on a raw string the constructor parses as a finite
value: divide by `10^s`. -/
theorem get_python_value_of_parse_fin {s : ℕ} {raw : List Char} {q : ℚ}
    (h : pyDecimalOfChars raw = some (.fin q)) :
    get_python_value s raw = .ok (.fin (q / 10 ^ s)) := by
  rw [get_python_value, h]
  rfl

/-- The full store round trip on a finite Decimal: the decoded value is
the encoded integer divided back by `10^s`. -/
theorem roundTrip_fin (s : ℕ) (v : ℚ) :
    (get_redis_value s (.dec (.fin v))).bind (get_python_value s)
      = .ok (.fin ((pyIntOfRat (v * 10 ^ s) : ℚ) / 10 ^ s)) := by
  rw [get_redis_value_fin]
  show get_python_value s (intToChars (pyIntOfRat (v * 10 ^ s))) = _
  exact get_python_value_of_parse_fin (pyDecimalOfChars_intToChars _)

/-! ### Lemmas: the column constructor -/

/-- Any successfully constructed column carries exactly the attributes the
constructor's assignment block computes. -/
theorem Column.init_ok {type : FieldType} {pk ck idx req : PyBoolArg}
    {enum : EnumArg} {sort : PyBoolArg} {st : Column}
    (h : Column.init type pk ck idx req enum sort = .ok st) :
    st.field_type = type ∧ st.primary = pk.isTrue ∧ st.composite = ck.isTrue
      ∧ st.sorted = sort.isTrue ∧ st.indexed = (idx.isTrue || ck.isTrue)
      ∧ st.required = (req.isTrue || pk.isTrue || ck.isTrue)
      ∧ st.enum = enum
      ∧ st.enum_choices = (if enum.toBool then enum.values.toFinset else ∅) := by
  rw [Column.init] at h
  split_ifs at h with h1 h2 h3 h4
  all_goals dsimp only at h
  all_goals simp only [Except.ok.injEq] at h
  all_goals subst h
  all_goals simp_all

/-! ## The claims -/

/-- Claim C1: for a `DecimalColumn` with scale `s`, the store round trip
`get_python_value ∘ get_redis_value` maps every exact decimal `v` to `v`
truncated to `s` fractional digits, and is the identity on every exact
decimal with at most `s` fractional digits (i.e. of the form `m / 10^s`
for an integer `m`). -/
theorem claim_C1 (s : ℕ) (v : ℚ) :
    (get_redis_value s (.dec (.fin v))).bind (get_python_value s)
        = .ok (.fin (truncToScale s v))
    ∧ ((∃ m : ℤ, v = (m : ℚ) / 10 ^ s) →
        (get_redis_value s (.dec (.fin v))).bind (get_python_value s)
          = .ok (.fin v)) := by
  constructor
  · rw [roundTrip_fin, truncToScale, pyIntOfRat_eq_ratTruncSpec]
  · rintro ⟨m, rfl⟩
    rw [roundTrip_fin]
    have hp : ((10 : ℚ) ^ s) ≠ 0 := by positivity
    rw [div_mul_cancel₀ _ hp, pyIntOfRat_intCast]

/-- Witness for C1 at scale 2 and `v = 12.34`. -/
theorem claim_C1_witness :
    (get_redis_value 2 (.dec (.fin ((1234 : ℚ) / 100)))).bind (get_python_value 2)
      = .ok (.fin ((1234 : ℚ) / 100)) :=
  (claim_C1 2 ((1234 : ℚ) / 100)).2 ⟨1234, by norm_num⟩

/-- Claim C2: `get_redis_value` truncates toward zero and never rounds —
in general its output is the rendered integer `ratTruncSpec (v * 10^s)` —
and concretely, with `decimal_places = 2`, encoding `12.345` yields the
string `"1234"` (not `"1235"`), while decoding `"1234"` yields `12.34`. -/
theorem claim_C2 :
    (∀ (s : ℕ) (v : ℚ),
        get_redis_value s (.dec (.fin v)) = .ok (intToChars (ratTruncSpec (v * 10 ^ s))))
    ∧ get_redis_value 2 (.dec (.fin ((12345 : ℚ) / 1000))) = .ok ['1', '2', '3', '4']
    ∧ (['1', '2', '3', '4'] : List Char) ≠ ['1', '2', '3', '5']
    ∧ get_python_value 2 ['1', '2', '3', '4'] = .ok (.fin ((1234 : ℚ) / 100)) := by
  refine ⟨?_, ?_, by decide, ?_⟩
  · intro s v
    rw [get_redis_value_fin, pyIntOfRat_eq_ratTruncSpec]
  · rw [get_redis_value_fin]
    have h1 : (12345 : ℚ) / 1000 * 10 ^ (2 : ℕ) = 2469 / 2 := by norm_num
    have h2 : pyIntOfRat ((2469 : ℚ) / 2) = 1234 := by
      rw [pyIntOfRat_eq_ratTruncSpec, ratTruncSpec, if_pos (by norm_num)]
      rw [Int.floor_eq_iff]
      norm_num
    rw [h1, h2]
    rfl
  · have hd : pyDecimalOfChars ['1', '2', '3', '4']
        = some (.fin ((digitsToNat ['1', '2', '3', '4'] : ℚ))) :=
      pyDecimalOfChars_digits (by simp) (by decide)
    have hv : digitsToNat ['1', '2', '3', '4'] = 1234 := by decide
    rw [hv] at hd
    rw [get_python_value_of_parse_fin hd]
    norm_num

/-- Claim C3 records a code bug, so this theorem evaluates the code at the
failing input: `DecimalColumn.__init__` raises `AttributeError` on every
call — in particular on the all-defaults call `DecimalColumn()` — because
its signature declares the positional-vararg tuple `*kwargs` (rather than
`**kwargs`) and the body immediately calls `kwargs.pop`, an attribute a
tuple does not have.  No argument combination yields a descriptor, against
the claim that construction succeeds with `scale = decimal_places`. -/
theorem claim_C3 :
    (∀ (α : Type) (dp : ℤ) (kwargs : List α),
        DecimalColumn.init dp kwargs = .error .attributeError)
    ∧ DecimalColumn.init 10 ([] : List Unit) = .error .attributeError :=
  ⟨fun _ _ _ => rfl, rfl⟩

/-- Claim C4: every successfully constructed column with
`composite_key=True` is indexed and required whatever the explicit `index`
and `required` arguments were, and every successfully constructed column
with `primary_key=True` is required. -/
theorem claim_C4 :
    (∀ (type : FieldType) (pk idx req : PyBoolArg) (enum : EnumArg)
        (sort : PyBoolArg) (st : Column),
        Column.init type pk .trueV idx req enum sort = .ok st →
        st.indexed = true ∧ st.required = true)
    ∧ (∀ (type : FieldType) (ck idx req : PyBoolArg) (enum : EnumArg)
        (sort : PyBoolArg) (st : Column),
        Column.init type .trueV ck idx req enum sort = .ok st →
        st.required = true) := by
  constructor
  · intro type pk idx req enum sort st h
    obtain ⟨-, -, -, -, hidx, hreq, -, -⟩ := Column.init_ok h
    exact ⟨by rw [hidx]; simp [PyBoolArg.isTrue], by rw [hreq]; simp [PyBoolArg.isTrue]⟩
  · intro type ck idx req enum sort st h
    obtain ⟨-, -, -, -, -, hreq, -, -⟩ := Column.init_ok h
    rw [hreq]
    simp [PyBoolArg.isTrue]

/-- The descriptor produced by `composite_key=True` with every other
argument left at its default (C4 witness data). -/
def colWitComposite : Column :=
  { field_type := .str, primary := false, composite := true, sorted := false,
    indexed := true, required := true, enum := .noneV, enum_choices := ∅ }

/-- The descriptor produced by `primary_key=True` with every other
argument left at its default (C4 witness data). -/
def colWitPrimary : Column :=
  { field_type := .str, primary := true, composite := false, sorted := false,
    indexed := false, required := true, enum := .noneV, enum_choices := ∅ }

/-- Witness for C4 on the two concrete constructions. -/
theorem claim_C4_witness :
    Column.init .str .noneV .trueV .noneV .noneV .noneV .noneV = .ok colWitComposite
    ∧ colWitComposite.indexed = true ∧ colWitComposite.required = true
    ∧ Column.init .str .trueV .noneV .noneV .noneV .noneV .noneV = .ok colWitPrimary
    ∧ colWitPrimary.required = true :=
  ⟨rfl, (claim_C4.1 .str .noneV .noneV .noneV .noneV .noneV colWitComposite rfl).1,
    (claim_C4.1 .str .noneV .noneV .noneV .noneV .noneV colWitComposite rfl).2,
    rfl, claim_C4.2 .str .noneV .noneV .noneV .noneV .noneV colWitPrimary rfl⟩

/-- With a supported `value_type` and both key arguments truthy, the
constructor raises the conflicting-key error (shared by C5 and C10). -/
theorem Column.init_conflict {type : FieldType} {pk ck idx req : PyBoolArg}
    {enum : EnumArg} {sort : PyBoolArg}
    (hty : type = FieldType.str ∨ type = FieldType.int ∨ type = FieldType.decimal)
    (hpk : pk.toBool = true) (hck : ck.toBool = true) :
    Column.init type pk ck idx req enum sort = .error .conflictingKeyRole := by
  have hand : (pk.toBool && ck.toBool) = true := by rw [hpk, hck]; rfl
  rw [Column.init, if_neg (not_not_intro hty), if_pos hand]

/-- Claim C5 as frozen quantifies over every argument combination with
both key roles truthy and asserts the conflicting-key failure.  That fails
when the `value_type` is unsupported, because the type check runs first:
with `type=float`, `primary_key=True`, `composite_key=True`, construction
fails with the Bad Field Type error instead. -/
theorem claim_C5_counterexample :
    PyBoolArg.toBool .trueV = true
    ∧ Column.init (.other "float") .trueV .trueV .noneV .noneV .noneV .noneV
        = .error .unsupportedType
    ∧ ColumnError.unsupportedType ≠ ColumnError.conflictingKeyRole :=
  ⟨rfl, rfl, by decide⟩

/-- Claim C5, amended: for every argument combination with a *supported*
`value_type` and both `primary_key` and `composite_key` truthy,
construction fails with the conflicting-key error; with an unsupported
`value_type` it fails with the unsupported-type error instead; in either
case no descriptor is produced. -/
theorem claim_C5 (type : FieldType) (pk ck idx req : PyBoolArg) (enum : EnumArg)
    (sort : PyBoolArg) (hpk : pk.toBool = true) (hck : ck.toBool = true) :
    ((type = .str ∨ type = .int ∨ type = .decimal) →
        Column.init type pk ck idx req enum sort = .error .conflictingKeyRole)
    ∧ (¬ (type = .str ∨ type = .int ∨ type = .decimal) →
        Column.init type pk ck idx req enum sort = .error .unsupportedType)
    ∧ (∀ st : Column, Column.init type pk ck idx req enum sort ≠ .ok st) := by
  have hand : (pk.toBool && ck.toBool) = true := by rw [hpk, hck]; rfl
  refine ⟨?_, ?_, ?_⟩
  · intro hty
    exact Column.init_conflict hty hpk hck
  · intro hty
    rw [Column.init, if_pos hty]
  · intro st hok
    by_cases hty : type = FieldType.str ∨ type = FieldType.int ∨ type = FieldType.decimal
    · rw [Column.init, if_neg (not_not_intro hty), if_pos hand] at hok
      exact Except.noConfusion hok
    · rw [Column.init, if_pos hty] at hok
      exact Except.noConfusion hok

/-- Witness for the amended C5 at a supported type. -/
theorem claim_C5_witness :
    Column.init .str .trueV .trueV .noneV .noneV .noneV .noneV
      = .error .conflictingKeyRole :=
  (claim_C5 .str .trueV .trueV .noneV .noneV .noneV .noneV rfl rfl).1 (Or.inl rfl)

/-- Claim C6: construction fails with the unsupported-type error exactly
when the requested `value_type` is outside the closed set
`{str, int, Decimal}`; for each of those three types the type check
passes. -/
theorem claim_C6 (type : FieldType) (pk ck idx req : PyBoolArg) (enum : EnumArg)
    (sort : PyBoolArg) :
    Column.init type pk ck idx req enum sort = .error .unsupportedType
      ↔ ¬ (type = .str ∨ type = .int ∨ type = .decimal) := by
  constructor
  · intro h
    by_contra hty
    rw [Column.init, if_neg (not_not_intro hty)] at h
    split_ifs at h <;> simp_all
  · intro hty
    rw [Column.init, if_pos hty]

/-- Witness for C6 in both directions on concrete types. -/
theorem claim_C6_witness :
    Column.init (.other "float") .noneV .noneV .noneV .noneV .noneV .noneV
      = .error .unsupportedType
    ∧ Column.init .decimal .noneV .noneV .noneV .noneV .noneV .noneV
      ≠ .error .unsupportedType := by
  constructor
  · exact (claim_C6 (.other "float") .noneV .noneV .noneV .noneV .noneV .noneV).2
      (by simp)
  · intro h
    exact absurd ((claim_C6 .decimal .noneV .noneV .noneV .noneV .noneV .noneV).1 h)
      (by simp)

/-- The descriptor produced when a falsy non-enum value is supplied as the
`enum` restriction (C7 counterexample data). -/
def colWitEnumFalsy : Column :=
  { field_type := .str, primary := false, composite := false, sorted := false,
    indexed := false, required := false, enum := .otherV false, enum_choices := ∅ }

/-- Claim C7 as frozen asserts that every supplied non-enum restriction is
rejected; that fails for *falsy* non-enum values (such as `0`, `""` or
`False`): the `if enum:` truthiness guard skips the `isinstance` check, so
construction silently succeeds with no restriction. -/
theorem claim_C7_counterexample :
    EnumArg.isEnumMeta (.otherV false) = false
    ∧ Column.init .str .noneV .noneV .noneV .noneV (.otherV false) .noneV = .ok colWitEnumFalsy
    ∧ (Except.ok colWitEnumFalsy ≠ (.error .invalidEnumDefinition : Except ColumnError Column)) :=
  ⟨rfl, rfl, fun h => Except.noConfusion h⟩

/-- Claim C7, amended: when the other validation steps pass, a *truthy*
non-enum restriction is rejected with the invalid-enum error; a
well-formed enum yields `enum_choices` exactly the set of its underlying
values (an empty enum is falsy, skips the branch, and still yields the
empty set — the set of its values); a falsy non-enum value or no
restriction at all yields the empty set without any error. -/
theorem claim_C7 (type : FieldType) (pk ck idx req sort : PyBoolArg)
    (hty : type = .str ∨ type = .int ∨ type = .decimal)
    (hkeys : (pk.toBool && ck.toBool) = false) :
    Column.init type pk ck idx req (.otherV true) sort = .error .invalidEnumDefinition
    ∧ (∀ vs : List ℤ, (Column.init type pk ck idx req (.enumV vs) sort).map Column.enum_choices
        = .ok vs.toFinset)
    ∧ (Column.init type pk ck idx req (.otherV false) sort).map Column.enum_choices = .ok ∅
    ∧ (Column.init type pk ck idx req .noneV sort).map Column.enum_choices = .ok ∅ := by
  have hnand : ¬ ((pk.toBool && ck.toBool) = true) := by rw [hkeys]; simp
  refine ⟨?_, ?_, ?_, ?_⟩
  · rw [Column.init, if_neg (not_not_intro hty), if_neg hnand]
    rfl
  · intro vs
    cases vs with
    | nil => rw [Column.init, if_neg (not_not_intro hty), if_neg hnand]; rfl
    | cons a as => rw [Column.init, if_neg (not_not_intro hty), if_neg hnand]; rfl
  · rw [Column.init, if_neg (not_not_intro hty), if_neg hnand]
    rfl
  · rw [Column.init, if_neg (not_not_intro hty), if_neg hnand]
    rfl

/-- Witness for the amended C7: a three-value enum yields exactly its
three underlying values, and a truthy non-enum is rejected. -/
theorem claim_C7_witness :
    (Column.init .str .noneV .noneV .noneV .noneV (.enumV [1, 2, 3]) .noneV).map
        Column.enum_choices = .ok ([1, 2, 3] : List ℤ).toFinset
    ∧ Column.init .str .noneV .noneV .noneV .noneV (.otherV true) .noneV
        = .error .invalidEnumDefinition :=
  ⟨(claim_C7 .str .noneV .noneV .noneV .noneV .noneV (Or.inl rfl) rfl).2.1 [1, 2, 3],
    (claim_C7 .str .noneV .noneV .noneV .noneV .noneV (Or.inl rfl) rfl).1⟩

/-- Claim C8: decode and encode failure modes.  Reading the claim's terms
against the code: "parseable as a number" is acceptance by the decimal
numeric-string grammar (`pyDecimalOfChars`), "convertible to an exact
decimal" is yielding a *finite* decimal value, the spec's `DecodeError` is
the decode-time raise and its `EncodeError` the encode-time raise.  Then:
`get_python_value` fails (with the constructor's conversion-syntax
`InvalidOperation`, the `DecodeError`) on every raw string the grammar
rejects, and succeeds on every finite parse; `get_redis_value` fails (at
conversion, multiplication or integer truncation — the `EncodeError`) on
every input that does not yield a finite decimal, and succeeds on every
input that does. -/
theorem claim_C8 :
    (∀ (s : ℕ) (raw : List Char), pyDecimalOfChars raw = none →
        get_python_value s raw = .error .invalidOperation)
    ∧ (∀ (s : ℕ) (raw : List Char) (q : ℚ), pyDecimalOfChars raw = some (.fin q) →
        get_python_value s raw = .ok (.fin (q / 10 ^ s)))
    ∧ (∀ (s : ℕ) (v : PyNumValue),
        (coerceToDecimal v = none ∨ coerceToDecimal v = some .nan
          ∨ coerceToDecimal v = some .snan ∨ coerceToDecimal v = some (.inf false)
          ∨ coerceToDecimal v = some (.inf true)) →
        ∃ e : DecimalError, get_redis_value s v = .error e)
    ∧ (∀ (s : ℕ) (v : PyNumValue) (q : ℚ), coerceToDecimal v = some (.fin q) →
        get_redis_value s v = .ok (intToChars (pyIntOfRat (q * 10 ^ s)))) := by
  refine ⟨?_, ?_, ?_, ?_⟩
  · intro s raw h
    rw [get_python_value, h]
    rfl
  · intro s raw q h
    exact get_python_value_of_parse_fin h
  · intro s v hv
    rcases hv with h | h | h | h | h
    · exact ⟨.invalidOperation, by rw [get_redis_value, h]; rfl⟩
    · exact ⟨.invalidOperation, by rw [get_redis_value, h]; rfl⟩
    · exact ⟨.invalidOperation, by rw [get_redis_value, h]; rfl⟩
    · exact ⟨.overflowError, by rw [get_redis_value, h]; rfl⟩
    · exact ⟨.overflowError, by rw [get_redis_value, h]; rfl⟩
  · intro s v q h
    rw [get_redis_value, h]
    rfl

/-- Witness for C8: decoding the malformed string `"a"` raises the
conversion error, and decoding the digit string `"7"` at scale 2
succeeds. -/
theorem claim_C8_witness :
    get_python_value 10 ['a'] = .error .invalidOperation
    ∧ get_python_value 2 ['7'] = .ok (.fin (((7 : ℕ) : ℚ) / 10 ^ (2 : ℕ))) := by
  constructor
  · exact claim_C8.1 10 ['a'] rfl
  · refine claim_C8.2.1 2 ['7'] ((7 : ℕ) : ℚ) ?_
    have h := pyDecimalOfChars_digits (l := ['7']) (by simp) (by decide)
    have hv : digitsToNat ['7'] = 7 := by decide
    rw [hv] at h
    exact h

/-- Claim C9: `auto_generate` issues exactly one increment request, using
the key `"auto:" + key_prefix + ":" + field_name`, and returns the counter
service's response unchanged: against a sequential counter the response is
the stored value plus one and only that key's entry changes; starting from
a zero counter, three repeated calls yield exactly 1, 2, 3; and a counter
failure propagates unchanged with no retry. -/
theorem claim_C9 :
    (∀ (σ ε : Type) (incr : σ → String → Except ε (ℤ × σ)) (db : σ) (p n : String),
        auto_generate incr db p n = incr db ("auto:" ++ p ++ ":" ++ n))
    ∧ (∀ (ε : Type) (st : String → ℤ) (p n : String),
        auto_generate (@seqIncr ε) st p n
          = .ok (st ("auto:" ++ p ++ ":" ++ n) + 1,
              fun k => if k = "auto:" ++ p ++ ":" ++ n
                then st ("auto:" ++ p ++ ":" ++ n) + 1 else st k))
    ∧ (∀ (ε : Type) (p n : String), ∃ st1 st2 st3 : String → ℤ,
        auto_generate (@seqIncr ε) (fun _ => 0) p n = .ok (1, st1)
          ∧ auto_generate (@seqIncr ε) st1 p n = .ok (2, st2)
          ∧ auto_generate (@seqIncr ε) st2 p n = .ok (3, st3))
    ∧ (∀ (σ ε : Type) (e : ε) (db : σ) (p n : String),
        auto_generate (fun _ _ => .error e) db p n = .error e) := by
  refine ⟨fun _ _ _ _ _ _ => rfl, fun _ _ _ _ => rfl, ?_, fun _ _ _ _ _ _ => rfl⟩
  intro ε p n
  refine ⟨fun k => if k = "auto:" ++ p ++ ":" ++ n then 1 else 0,
          fun k => if k = "auto:" ++ p ++ ":" ++ n then 2
            else (if k = "auto:" ++ p ++ ":" ++ n then 1 else 0),
          fun k => if k = "auto:" ++ p ++ ":" ++ n then 3
            else (if k = "auto:" ++ p ++ ":" ++ n then 2
              else (if k = "auto:" ++ p ++ ":" ++ n then 1 else 0)),
          ?_, ?_, ?_⟩ <;>
    simp [auto_generate, seqIncr]

/-- Claim C10: the stored flags come from identity with the literal `True`
(`is True`), while the key-conflict check fires on mere truthiness: on any
successful construction `primary`, `composite` and `sorted` equal the
`is True` test of their arguments; with a supported type and both key
arguments truthy the conflict error fires; and the truthy non-`True`
argument `1` for `primary_key` alone yields a successful construction with
`primary = false` and `required = false`. -/
theorem claim_C10 :
    (∀ (type : FieldType) (pk ck idx req : PyBoolArg) (enum : EnumArg)
        (sort : PyBoolArg) (st : Column),
        Column.init type pk ck idx req enum sort = .ok st →
        st.primary = pk.isTrue ∧ st.composite = ck.isTrue ∧ st.sorted = sort.isTrue)
    ∧ (∀ (type : FieldType) (pk ck idx req : PyBoolArg) (enum : EnumArg)
        (sort : PyBoolArg),
        (type = .str ∨ type = .int ∨ type = .decimal) →
        pk.toBool = true → ck.toBool = true →
        Column.init type pk ck idx req enum sort = .error .conflictingKeyRole)
    ∧ PyBoolArg.toBool .truthyV = true
    ∧ PyBoolArg.isTrue .truthyV = false
    ∧ Column.init .str .truthyV .noneV .noneV .noneV .noneV .noneV
        = .ok { field_type := .str, primary := false, composite := false, sorted := false,
                indexed := false, required := false, enum := .noneV, enum_choices := ∅ } := by
  refine ⟨?_, ?_, rfl, rfl, rfl⟩
  · intro type pk ck idx req enum sort st h
    obtain ⟨-, hp, hc, hs, -, -, -, -⟩ := Column.init_ok h
    exact ⟨hp, hc, hs⟩
  · intro type pk ck idx req enum sort hty hpk hck
    exact Column.init_conflict hty hpk hck

/-- Witness for C10 on a concrete construction with `primary_key=1`. -/
theorem claim_C10_witness :
    ({ field_type := .str, primary := false, composite := false, sorted := false,
       indexed := false, required := false, enum := .noneV,
       enum_choices := ∅ } : Column).primary = PyBoolArg.isTrue .truthyV
    ∧ Column.init .str .trueV .truthyV .noneV .noneV .noneV .noneV
        = .error .conflictingKeyRole :=
  ⟨(claim_C10.1 .str .truthyV .noneV .noneV .noneV .noneV .noneV _ rfl).1,
    claim_C10.2.1 .str .trueV .truthyV .noneV .noneV .noneV .noneV (Or.inl rfl) rfl rfl⟩

end Subconscious
